import Mathlib

/-!
Verification of `conventional_pre_commit/hook.py` (the pre-commit hook entry
point) against its specification.

The repository ships a single source file, `hook.py`.  The classifier module
`conventional_pre_commit.format` that it imports (`is_conventional`,
`has_autosquash_prefix`, `DEFAULT_TYPES`, `conventional_types`) is not part of
the available sources, so those functions are modelled from the specification
(sections 4.1–4.3 of the design document); every such definition carries a
doc comment starting with "Modelled from the spec:".  Everything else below is
a direct shallow embedding of `hook.py`.

Strings are manipulated through their underlying character lists so that all
definitions reduce inside the kernel (the corresponding core `String`
functions use well-founded recursion, which does not).

Effects are made explicit: the file system is an `Env` value (initial file
contents plus the sequence of contents observed at each iteration of the
`--edit` retry loop), and `main` returns an `Outcome` together with a `Trace`
recording how often the classifier was invoked and which contents were written
back to the commit-message file.  The unbounded `while True` loop of the
`--edit` path is embedded with explicit fuel; running out of fuel yields the
distinguished outcome `Outcome.running` ("the loop has not returned yet").
-/

deriving instance DecidableEq for Except

namespace Hook

/-- The part of `l` strictly before the first occurrence of `c`, paired with
the part strictly after it; `none` when `c` does not occur. -/
def breakAt (c : Char) : List Char → Option (List Char × List Char)
  | [] => none
  | x :: xs =>
    if x = c then some ([], xs)
    else
      match breakAt c xs with
      | none => none
      | some (pre, post) => some (x :: pre, post)

/-- Split `l` at every occurrence of `c`, Python `str.split` style: the
result is never empty, and `splitChar c [] = [[]]`. -/
def splitChar (c : Char) : List Char → List (List Char)
  | [] => [[]]
  | x :: xs =>
    let r := splitChar c xs
    if x = c then [] :: r
    else
      match r with
      | [] => [[x]]
      | h :: t => (x :: h) :: t

/-- Remove trailing whitespace characters. -/
def trimRightChars (l : List Char) : List Char :=
  (l.reverse.dropWhile Char.isWhitespace).reverse

/-- hook.py line 7: `RESULT_SUCCESS = 0`. -/
def RESULT_SUCCESS : Nat := 0

/-- hook.py line 8: `RESULT_FAIL = 1`. -/
def RESULT_FAIL : Nat := 1

/-- hook.py line 12: ANSI color escape string (`\033` is ESC, `\x1b`). -/
def Colors.LBLUE : String := "\x1b[00;34m"

/-- hook.py line 13. -/
def Colors.LRED : String := "\x1b[01;31m"

/-- hook.py line 14. -/
def Colors.RESTORE : String := "\x1b[0m"

/-- hook.py line 15. -/
def Colors.YELLOW : String := "\x1b[00;33m"

/-- Modelled from the spec: the built-in default type list of the missing
`conventional_pre_commit.format` module (`format.DEFAULT_TYPES`), the
"fixed built-in list" of 11 types given in spec sections 4.3 and 8. -/
def DEFAULT_TYPES : List String :=
  ["build", "chore", "ci", "docs", "feat", "fix", "perf", "refactor", "revert", "style", "test"]

/-- Modelled from the spec: the autosquash prefixes of section 4.1
(`fixup!`, `squash!`, `amend!`). -/
def AUTOSQUASH_PREFIXES : List String := ["amend!", "fixup!", "squash!"]

/-- Modelled from the spec: `isAutosquash` / `format.has_autosquash_prefix`
(missing module).  Spec sections 4.1 and 8: true exactly when the message
starts with one of the autosquash prefixes followed by a space. -/
def has_autosquash_prefix (input : String) : Bool :=
  AUTOSQUASH_PREFIXES.any fun p => List.isPrefixOf (p ++ " ").data input.data

/-- Modelled from the spec: `describeTypes` / `format.conventional_types`
(missing module), section 4.3 — a pure formatting helper rendering the
configured types as display strings. -/
def conventional_types (types : List String) : List String := types

/-- A parsed Conventional Commits header:
`type [ "(" scope ")" ] [ "!" ] ":" " " description`. -/
structure Header where
  type : String
  scope : Option String
  breaking : Bool
  description : String
deriving DecidableEq

/-- Modelled from the spec: the header grammar of section 4.2 (the parsing
half of the missing `format.is_conventional`).

* The header is the text up to the first newline (decision procedure step 1),
  with trailing whitespace ignored (edge-case list);
* the first `:` is the structural delimiter (type and scope may not contain
  `:`; later colons belong to the description);
* a mandatory single space follows the `:`, and the description must contain
  at least one non-whitespace character;
* the optional breaking marker `!` is accepted only immediately before the
  `:` — a `!` anywhere else in the prefix is rejected ("reject headers
  placing `!` elsewhere", step 6);
* a scope, when present, is a non-empty parenthesized string excluding `(`,
  `)`, `:` and newline, with `)` sitting directly before the optional `!`
  and the `:`. -/
def parseHeader (message : String) : Option Header :=
  let header := trimRightChars (message.data.takeWhile fun c => c != '\n')
  match breakAt ':' header with
  | none => none
  | some (pre, rest) =>
    match rest with
    | [] => none
    | sp :: descr =>
      if sp != ' ' then none
      else if descr.all Char.isWhitespace then none
      else
        let breaking := pre.getLast? == some '!'
        let core := if breaking then pre.dropLast else pre
        if core.contains '!' then none
        else if core.getLast? == some ')' then
          match breakAt '(' core.dropLast with
          | none => none
          | some (ty, sc) =>
            if ty.isEmpty || sc.isEmpty || sc.contains '(' || sc.contains ')'
                || ty.contains ')' then none
            else some ⟨String.mk ty, some (String.mk sc), breaking, String.mk descr⟩
        else if core.contains '(' || core.contains ')' || core.isEmpty then none
        else some ⟨String.mk core, none, breaking, String.mk descr⟩

/-- Modelled from the spec: the type check of section 4.2 step 5 — the header
type token must case-insensitively equal one configured type. -/
def typeOk (ty : String) (types : List String) : Bool :=
  types.any fun t => t.data.map Char.toLower == ty.data.map Char.toLower

/-- Modelled from the spec: the scope checks of section 4.2 steps 3-4 — a
present scope must be an exact member of the allow-list when one is given
(when the allow-list is absent, any non-empty scope is accepted; the parser
already guarantees non-emptiness), and a missing scope is accepted only when
`optional_scope` is true. -/
def scopeOk (scope : Option String) (optional_scope : Bool)
    (scopes : Option (List String)) : Bool :=
  match scope with
  | some s =>
    match scopes with
    | some allow => allow.contains s
    | none => true
  | none => optional_scope

/-- Modelled from the spec: `isConventional` / `format.is_conventional`
(missing module), spec section 4.2.  The `scopes` argument is the optional
scope allow-list; `none` models the absent (Python falsy: `None` or `""`)
value. -/
def is_conventional (message : String) (types : List String) (optional_scope : Bool)
    (scopes : Option (List String)) : Bool :=
  match parseHeader message with
  | none => false
  | some h => typeOk h.type types && scopeOk h.scope optional_scope scopes

/-- Contents of the commit-message file: either text that decodes as UTF-8,
or bytes that raise `UnicodeDecodeError` on reading. -/
inductive FileContent where
  | text (s : String)
  | undecodable
deriving DecidableEq

/-- hook.py lines 23-30: the error text printed on `UnicodeDecodeError`
(the f-string of `read_message_or_exit`, colors substituted). -/
def encoding_error_text : String :=
  "\n" ++ Colors.LRED ++ "[Bad Commit message encoding] " ++ Colors.RESTORE ++ "\n\n"
    ++ Colors.YELLOW ++ "conventional-pre-commit couldn\x27t decode your commit message."
    ++ Colors.RESTORE ++ "\n" ++ Colors.YELLOW ++ "UTF-8" ++ Colors.RESTORE
    ++ " encoding is assumed, please configure git to write commit messages in UTF-8.\nSee "
    ++ Colors.LBLUE ++ "https://git-scm.com/docs/git-commit/#_discussion" ++ Colors.RESTORE
    ++ " for more.\n        "

/-- hook.py lines 18-32: read the commit-message file; a decodable file
yields its text, an undecodable one prints `encoding_error_text` and raises
`SystemExit(RESULT_FAIL)` — embedded as `Except.error` carrying the exit
status and the printed text. -/
def read_message_or_exit : FileContent → Except (Nat × String) String
  | .text s => .ok s
  | .undecodable => .error (RESULT_FAIL, encoding_error_text)

/-- The parsed command-line arguments (the `args` namespace produced by the
parser configured in hook.py lines 36-60). -/
structure Args where
  types : List String
  input : String
  optional_scope : Bool
  scopes : Option String
  strict : Bool
  edit : Bool
deriving DecidableEq

/-- Intermediate state of the argv scan: collected positional tokens plus the
values of the four options, with the argparse defaults of hook.py lines 39-60
(`optional_scope = True`, `scopes = None`, `strict = False`, `edit = False`). -/
structure ScanState where
  positionals : List String
  scopes : Option String
  optional_scope : Bool
  strict : Bool
  edit : Bool
deriving DecidableEq

/-- The initial scan state: argparse defaults of hook.py lines 39-60. -/
def initScan : ScanState := ⟨[], none, true, false, false⟩

/-- One pass over argv, embedding the argparse configuration of hook.py
lines 36-60: `--force-scope` clears `optional_scope` (`action="store_false"`),
`--strict` and `--edit` are store-true flags, `--scopes` takes a value
(either as the following token or in `--scopes=value` form); any other token
starting with `-` is an unrecognized option (a parse error — argparse raises
`SystemExit`), and the remaining tokens are positionals. -/
def scanArgv (argv : List String) (st : ScanState) : Except Unit ScanState :=
  match argv with
  | [] => .ok st
  | tok :: rest =>
    if tok = "--force-scope" then scanArgv rest { st with optional_scope := false }
    else if tok = "--strict" then scanArgv rest { st with strict := true }
    else if tok = "--edit" then scanArgv rest { st with edit := true }
    else if tok = "--scopes" then
      match rest with
      | [] => .error ()
      | v :: rest2 => scanArgv rest2 { st with scopes := some v }
    else if List.isPrefixOf "--scopes=".data tok.data then
      scanArgv rest { st with scopes := some (String.mk (tok.data.drop 9)) }
    else if List.isPrefixOf ['-'] tok.data && tok != "-" then .error ()
    else scanArgv rest { st with positionals := st.positionals ++ [tok] }

/-- hook.py lines 36-68 (`parser.parse_args`): the positional pattern is
`types` (`nargs="*"`, `default=format.DEFAULT_TYPES`) followed by the
required `input`, so argparse assigns the last positional token to `input`
and the remaining ones to `types`; with no positional at all parsing fails
(`SystemExit`), and when zero tokens were matched for `types` argparse
substitutes the declared default `format.DEFAULT_TYPES` (hook.py line 39). -/
def parse_args (argv : List String) : Except Unit Args :=
  match scanArgv argv initScan with
  | .error e => .error e
  | .ok st =>
    match st.positionals.getLast? with
    | none => .error ()
    | some input =>
      let tys := st.positionals.dropLast
      .ok ⟨if tys.isEmpty then DEFAULT_TYPES else tys, input,
        st.optional_scope, st.scopes, st.strict, st.edit⟩

/-- hook.py lines 72-75: `if args.scopes: scopes = args.scopes.split(",")
else: scopes = args.scopes`.  A truthy (non-empty) `--scopes` string is split
on commas into the allow-list; a falsy value (`None`, or the empty string)
is passed through unchanged and denotes an absent allow-list, modelled as
`none`. -/
def computeScopes (s : Option String) : Option (List String) :=
  match s with
  | some str =>
    if str.data.isEmpty then none
    else some ((splitChar ',' str.data).map String.mk)
  | none => none

/-- The outcome of a `main` invocation: an ordinary `return code`, a
`SystemExit(code)` raised out of `read_message_or_exit`, or `running` when
the embedded fuel of the `--edit` retry loop is exhausted before the loop
has returned (the Python loop is `while True`). -/
inductive Outcome where
  | exit (code : Nat)
  | sysExit (code : Nat)
  | running
deriving DecidableEq

/-- One invocation of `format.is_conventional`, with the arguments it
received (recorded so that theorems can speak about whether and how the
classifier was consulted). -/
structure ClassifierCall where
  message : String
  types : List String
  optional_scope : Bool
  scopes : Option (List String)
deriving DecidableEq

/-- Effect trace of a `main` invocation: the `format.is_conventional`
invocations in order, and the successive contents written to the
commit-message file. -/
structure Trace where
  calls : List ClassifierCall
  writes : List String
deriving DecidableEq

/-- The environment `main` runs in: `sys.argv[1:]` (consulted only when the
`argv` parameter is empty, hook.py lines 62-63), the initial contents of the
commit-message file (hook.py line 70), and the contents observed by the k-th
re-read inside the `--edit` retry loop (hook.py line 128 — these reflect the
user's edits between iterations and are therefore part of the environment). -/
structure Env where
  sysArgv : List String
  file : FileContent
  editReads : Nat → FileContent

/-- hook.py lines 134-142 followed by line 145: the help header written to
the commit-message file on an `--edit` retry; the old message is written
directly after it on the same handle. -/
def editHelpText (types : List String) : String :=
  "# Your commit message does not follow Conventional Commits formatting\n"
    ++ "# https://www.conventionalcommits.org/\n\n"
    ++ "# Conventional Commits start with one of the below types, followed by a colon,\n"
    ++ "# followed by the commit subject and an optional body seperated by a blank line:\n\n"
    ++ "#     " ++ String.intercalate " " (conventional_types types) ++ "\n#\n"
    ++ "#     Please edit the message to follow Conventional Commits below and remove this header."

/-- hook.py lines 127-153: the `while True` retry loop of the `--edit` path.
Each iteration re-reads the file (raising `SystemExit` on decode failure),
returns `RESULT_SUCCESS` when the re-read message is conventional, and
otherwise rewrites the file with `editHelpText` prepended to the message and
re-runs the editor (`sp.run(..., check=False)` — the editor's exit status is
discarded by the source, so it does not appear in the model).  `fuel` bounds
how many iterations are unfolded; exhausting it yields `Outcome.running`. -/
def editLoop (types : List String) (optional_scope : Bool) (scopes : Option (List String))
    (env : Env) : Nat → Nat → Trace → Outcome × Trace
  | 0, _, tr => (.running, tr)
  | fuel + 1, k, tr =>
    match read_message_or_exit (env.editReads k) with
    | .error ec => (.sysExit ec.fst, tr)
    | .ok message =>
      if is_conventional message types optional_scope scopes then
        (.exit RESULT_SUCCESS, ⟨tr.calls ++ [⟨message, types, optional_scope, scopes⟩], tr.writes⟩)
      else
        editLoop types optional_scope scopes env fuel (k + 1)
          ⟨tr.calls ++ [⟨message, types, optional_scope, scopes⟩],
            tr.writes ++ [editHelpText types ++ message]⟩

/-- hook.py lines 35-153: `main(argv)`.  Empty `argv` falls back to
`sys.argv[1:]` (lines 62-63); a parse error is caught and turned into
`RESULT_FAIL` (lines 65-68); the message is read (line 70) and the scope
allow-list computed (lines 72-75); without `--strict` an autosquash message
short-circuits to `RESULT_SUCCESS` before the classifier runs (lines 77-79);
a conventional message returns `RESULT_SUCCESS` (lines 81-82); otherwise,
without `--edit` the failure text is printed and `RESULT_FAIL` returned
(lines 84-115), and with `--edit` the retry loop is entered (lines 117-153). -/
def main (argv : List String) (env : Env) (fuel : Nat) : Outcome × Trace :=
  let argv2 := if argv.length < 1 then env.sysArgv else argv
  match parse_args argv2 with
  | .error _ => (.exit RESULT_FAIL, ⟨[], []⟩)
  | .ok args =>
    match read_message_or_exit env.file with
    | .error ec => (.sysExit ec.fst, ⟨[], []⟩)
    | .ok message =>
      let scopes := computeScopes args.scopes
      if !args.strict && has_autosquash_prefix message then
        (.exit RESULT_SUCCESS, ⟨[], []⟩)
      else if is_conventional message args.types args.optional_scope scopes then
        (.exit RESULT_SUCCESS, ⟨[⟨message, args.types, args.optional_scope, scopes⟩], []⟩)
      else if !args.edit then
        (.exit RESULT_FAIL, ⟨[⟨message, args.types, args.optional_scope, scopes⟩], []⟩)
      else
        editLoop args.types args.optional_scope scopes env fuel 0
          ⟨[⟨message, args.types, args.optional_scope, scopes⟩], []⟩

example : parseHeader "feat: add x" = some ⟨"feat", none, false, "add x"⟩ := by decide
example : parseHeader "feat(api)!: breaking" = some ⟨"feat", some "api", true, "breaking"⟩ := by
  decide
example : parseHeader "feat!(api): breaking" = none := by decide
example : is_conventional "feat: add x" DEFAULT_TYPES true none = true := by decide
example : is_conventional "random text" DEFAULT_TYPES true none = false := by decide
example : parse_args ["file"] = .ok ⟨DEFAULT_TYPES, "file", true, none, false, false⟩ := by decide
example : parse_args ["--strict"] = .error () := by decide
example : has_autosquash_prefix "fixup! feat: x" = true := by decide
example : computeScopes (some "api,client") = some ["api", "client"] := by decide

/-- Environment with a conforming commit message. -/
def envGood : Env := ⟨[], .text "feat: add x", fun _ => .text ""⟩

/-- Environment whose commit-message file does not decode as UTF-8. -/
def envBad : Env := ⟨[], .undecodable, fun _ => .text ""⟩

/-- Environment with a scoped message, for the `--scopes` claims. -/
def envScopeAny : Env := ⟨[], .text "feat(anything): add x", fun _ => .text ""⟩

/-- Environment where the first re-read inside the `--edit` loop already
yields a conforming message. -/
def envGoodEdit : Env := ⟨[], .text "bad message", fun _ => .text "feat: add x"⟩

theorem not_length_lt_one {argv : List String} (h : argv ≠ []) : ¬ argv.length < 1 := by
  cases argv with
  | nil => exact absurd rfl h
  | cons a as => exact Nat.not_lt.mpr (Nat.succ_le_succ (Nat.zero_le _))

theorem main_parse_error (argv : List String) (env : Env) (fuel : Nat)
    (hargv : argv ≠ []) (herr : parse_args argv = .error ()) :
    main argv env fuel = (.exit RESULT_FAIL, ⟨[], []⟩) := by
  simp only [main]
  rw [if_neg (not_length_lt_one hargv), herr]

theorem main_read_error (argv : List String) (env : Env) (fuel : Nat) (args : Args)
    (hargv : argv ≠ []) (hparse : parse_args argv = .ok args)
    (hfile : env.file = .undecodable) :
    main argv env fuel = (.sysExit RESULT_FAIL, ⟨[], []⟩) := by
  simp only [main]
  rw [if_neg (not_length_lt_one hargv), hparse, hfile]
  rfl

theorem main_ok (argv : List String) (env : Env) (fuel : Nat) (args : Args) (msg : String)
    (hargv : argv ≠ []) (hparse : parse_args argv = .ok args)
    (hread : env.file = .text msg) :
    main argv env fuel =
      if !args.strict && has_autosquash_prefix msg then
        (.exit RESULT_SUCCESS, ⟨[], []⟩)
      else if is_conventional msg args.types args.optional_scope (computeScopes args.scopes) then
        (.exit RESULT_SUCCESS,
          ⟨[⟨msg, args.types, args.optional_scope, computeScopes args.scopes⟩], []⟩)
      else if !args.edit then
        (.exit RESULT_FAIL,
          ⟨[⟨msg, args.types, args.optional_scope, computeScopes args.scopes⟩], []⟩)
      else
        editLoop args.types args.optional_scope (computeScopes args.scopes) env fuel 0
          ⟨[⟨msg, args.types, args.optional_scope, computeScopes args.scopes⟩], []⟩ := by
  simp only [main]
  rw [if_neg (not_length_lt_one hargv), hparse, hread]
  rfl

theorem editLoop_calls_subset (types : List String) (opt : Bool)
    (scopes : Option (List String)) (env : Env) :
    ∀ (fuel k : Nat) (tr : Trace) (c : ClassifierCall),
      c ∈ (editLoop types opt scopes env fuel k tr).snd.calls →
      c ∈ tr.calls ∨ c.types = types := by
  intro fuel
  induction fuel with
  | zero => exact fun k tr c hc => .inl hc
  | succ n ih =>
    intro k tr c hc
    cases h : env.editReads k with
    | text m =>
      simp only [editLoop, h, read_message_or_exit] at hc
      by_cases hconv : is_conventional m types opt scopes = true
      · rw [if_pos hconv] at hc
        simp only [List.mem_append, List.mem_singleton] at hc
        rcases hc with hc | hc
        · exact .inl hc
        · exact .inr (by rw [hc])
      · rw [if_neg hconv] at hc
        rcases ih (k + 1) _ c hc with hc2 | hc2
        · simp only [List.mem_append, List.mem_singleton] at hc2
          rcases hc2 with hc2 | hc2
          · exact .inl hc2
          · exact .inr (by rw [hc2])
        · exact .inr hc2
    | undecodable =>
      simp only [editLoop, h, read_message_or_exit] at hc
      exact .inl hc

theorem editLoop_calls_length (types : List String) (opt : Bool)
    (scopes : Option (List String)) (env : Env) :
    ∀ (fuel k : Nat) (tr : Trace),
      tr.calls.length ≤ (editLoop types opt scopes env fuel k tr).snd.calls.length := by
  intro fuel
  induction fuel with
  | zero => exact fun k tr => le_refl _
  | succ n ih =>
    intro k tr
    cases h : env.editReads k with
    | text m =>
      simp only [editLoop, h, read_message_or_exit]
      by_cases hconv : is_conventional m types opt scopes = true
      · rw [if_pos hconv]
        simp
      · rw [if_neg hconv]
        refine le_trans ?_ (ih (k + 1) _)
        simp
    | undecodable =>
      simp only [editLoop, h, read_message_or_exit]
      exact le_refl _

theorem editLoop_writes_shape (types : List String) (opt : Bool)
    (scopes : Option (List String)) (env : Env) :
    ∀ (fuel k : Nat) (tr : Trace),
      (∀ w ∈ tr.writes, ∃ m, w = editHelpText types ++ m) →
      ∀ w ∈ (editLoop types opt scopes env fuel k tr).snd.writes,
        ∃ m, w = editHelpText types ++ m := by
  intro fuel
  induction fuel with
  | zero => exact fun k tr htr => htr
  | succ n ih =>
    intro k tr htr w hw
    cases h : env.editReads k with
    | text m =>
      simp only [editLoop, h, read_message_or_exit] at hw
      by_cases hconv : is_conventional m types opt scopes = true
      · rw [if_pos hconv] at hw
        exact htr w hw
      · rw [if_neg hconv] at hw
        refine ih (k + 1) _ ?_ w hw
        intro v hv
        simp only [List.mem_append, List.mem_singleton] at hv
        rcases hv with hv | hv
        · exact htr v hv
        · exact ⟨m, hv⟩
    | undecodable =>
      simp only [editLoop, h, read_message_or_exit] at hw
      exact htr w hw

theorem parse_args_eq (argv : List String) (st : ScanState)
    (hscan : scanArgv argv initScan = .ok st) :
    parse_args argv =
      match st.positionals.getLast? with
      | none => .error ()
      | some input =>
        .ok ⟨if st.positionals.dropLast.isEmpty then DEFAULT_TYPES
              else st.positionals.dropLast, input,
          st.optional_scope, st.scopes, st.strict, st.edit⟩ := by
  unfold parse_args
  rw [hscan]

theorem main_calls_types (argv : List String) (env : Env) (fuel : Nat) (args : Args)
    (hargv : argv ≠ []) (hparse : parse_args argv = .ok args) :
    ∀ c ∈ (main argv env fuel).snd.calls, c.types = args.types := by
  cases hf : env.file with
  | undecodable =>
    rw [main_read_error argv env fuel args hargv hparse hf]
    simp
  | text msg =>
    rw [main_ok argv env fuel args msg hargv hparse hf]
    by_cases h1 : (!args.strict && has_autosquash_prefix msg) = true
    · rw [if_pos h1]; simp
    · rw [if_neg h1]
      by_cases h2 :
          is_conventional msg args.types args.optional_scope (computeScopes args.scopes) = true
      · rw [if_pos h2]
        intro c hc
        simp only [List.mem_singleton] at hc
        rw [hc]
      · rw [if_neg h2]
        by_cases h3 : (!args.edit) = true
        · rw [if_pos h3]
          intro c hc
          simp only [List.mem_singleton] at hc
          rw [hc]
        · rw [if_neg h3]
          intro c hc
          rcases editLoop_calls_subset args.types args.optional_scope
              (computeScopes args.scopes) env fuel 0 _ c hc with h | h
          · simp only [List.mem_singleton] at h
            rw [h]
          · exact h

/-- C1: with an argv the parser accepts and a message file that decodes,
`main` returns exit status 0 (`RESULT_SUCCESS`) when the commit message
conforms (or is an autosquash message while `--strict` is off), and, when
`--edit` is not given, returns exit status 1 (`RESULT_FAIL`) for every
message that neither conforms nor qualifies for the autosquash exemption. -/
theorem C1_main_exit_status (argv : List String) (env : Env) (fuel : Nat)
    (args : Args) (msg : String) (hargv : argv ≠ [])
    (hparse : parse_args argv = .ok args) (hread : env.file = .text msg) :
    (((!args.strict && has_autosquash_prefix msg)
        || is_conventional msg args.types args.optional_scope (computeScopes args.scopes))
        = true →
      (main argv env fuel).fst = .exit RESULT_SUCCESS)
    ∧ (args.edit = false →
      ((!args.strict && has_autosquash_prefix msg)
        || is_conventional msg args.types args.optional_scope (computeScopes args.scopes))
        = false →
      (main argv env fuel).fst = .exit RESULT_FAIL) := by
  rw [main_ok argv env fuel args msg hargv hparse hread]
  constructor
  · intro h
    by_cases h1 : (!args.strict && has_autosquash_prefix msg) = true
    · rw [if_pos h1]
    · have h2 :
          is_conventional msg args.types args.optional_scope (computeScopes args.scopes)
            = true := by
        cases hb :
            is_conventional msg args.types args.optional_scope (computeScopes args.scopes) with
        | true => rfl
        | false =>
          rw [Bool.not_eq_true] at h1
          rw [h1, hb] at h
          simp at h
      rw [if_neg h1, if_pos h2]
  · intro hedit h
    have h1 : (!args.strict && has_autosquash_prefix msg) = false := by
      cases hb : (!args.strict && has_autosquash_prefix msg) with
      | true => rw [hb] at h; simp at h
      | false => rfl
    have h2 :
        is_conventional msg args.types args.optional_scope (computeScopes args.scopes)
          = false := by
      cases hb :
          is_conventional msg args.types args.optional_scope (computeScopes args.scopes) with
      | true => rw [h1, hb] at h; simp at h
      | false => rfl
    rw [if_neg (by simp [h1]), if_neg (by simp [h2]), if_pos (by simp [hedit])]

/-- C1 witness: a concrete conforming invocation. -/
theorem C1_main_exit_status_witness :
    (main ["file"] envGood 0).fst = .exit RESULT_SUCCESS :=
  (C1_main_exit_status ["file"] envGood 0
      ⟨DEFAULT_TYPES, "file", true, none, false, false⟩ "feat: add x"
      (by decide) (by decide) rfl).1 (by decide)

/-- C2: the autosquash check is consulted before the grammar classifier and
only when strict mode is off — without `--strict` an autosquash message makes
`main` return success with an empty classifier-call trace (so
`is_conventional` was never invoked), while with `--strict` the classifier is
always invoked (at least one recorded call) and, without `--edit`, the exit
status is exactly the classifier's verdict. -/
theorem C2_autosquash_short_circuit (argv : List String) (env : Env) (fuel : Nat)
    (args : Args) (msg : String) (hargv : argv ≠ [])
    (hparse : parse_args argv = .ok args) (hread : env.file = .text msg) :
    (args.strict = false → has_autosquash_prefix msg = true →
      main argv env fuel = (.exit RESULT_SUCCESS, ⟨[], []⟩))
    ∧ (args.strict = true →
      1 ≤ (main argv env fuel).snd.calls.length
      ∧ (args.edit = false → (main argv env fuel).fst =
          .exit (if is_conventional msg args.types args.optional_scope
            (computeScopes args.scopes) then RESULT_SUCCESS else RESULT_FAIL))) := by
  rw [main_ok argv env fuel args msg hargv hparse hread]
  constructor
  · intro hs ha
    rw [if_pos (by simp [hs, ha])]
  · intro hs
    rw [if_neg (by simp [hs])]
    constructor
    · by_cases hconv :
          is_conventional msg args.types args.optional_scope (computeScopes args.scopes) = true
      · rw [if_pos hconv]
        simp
      · rw [if_neg hconv]
        cases he : args.edit with
        | false =>
          rw [if_pos (by simp [he])]
          simp
        | true =>
          rw [if_neg (by simp [he])]
          refine le_trans ?_ (editLoop_calls_length args.types args.optional_scope
            (computeScopes args.scopes) env fuel 0 _)
          simp
    · intro hedit
      by_cases hconv :
          is_conventional msg args.types args.optional_scope (computeScopes args.scopes) = true
      · rw [if_pos hconv, if_pos hconv]
      · rw [if_neg hconv, if_pos (by simp [hedit]),
          if_neg (by simp [Bool.not_eq_true] at hconv; simp [hconv])]

/-- C2 witness: a concrete autosquash message without `--strict`. -/
theorem C2_autosquash_short_circuit_witness :
    main ["file"] ⟨[], .text "fixup! wip", fun _ => .text ""⟩ 0
      = (.exit RESULT_SUCCESS, ⟨[], []⟩) :=
  (C2_autosquash_short_circuit ["file"] ⟨[], .text "fixup! wip", fun _ => .text ""⟩ 0
      ⟨DEFAULT_TYPES, "file", true, none, false, false⟩ "fixup! wip"
      (by decide) (by decide) rfl).1 rfl (by decide)

/-- C10: when `--edit` is not given the commit-message file is never written
(the write trace is empty), and every write `main` can ever perform is the
help header followed by the old message (the `--edit` retry-loop rewrite). -/
theorem C10_no_write_without_edit (argv : List String) (env : Env) (fuel : Nat)
    (args : Args) (hargv : argv ≠ []) (hparse : parse_args argv = .ok args) :
    (args.edit = false → (main argv env fuel).snd.writes = [])
    ∧ ∀ w ∈ (main argv env fuel).snd.writes, ∃ m, w = editHelpText args.types ++ m := by
  cases hf : env.file with
  | undecodable =>
    rw [main_read_error argv env fuel args hargv hparse hf]
    exact ⟨fun _ => rfl, by simp⟩
  | text msg =>
    rw [main_ok argv env fuel args msg hargv hparse hf]
    by_cases h1 : (!args.strict && has_autosquash_prefix msg) = true
    · rw [if_pos h1]
      exact ⟨fun _ => rfl, by simp⟩
    · rw [if_neg h1]
      by_cases h2 :
          is_conventional msg args.types args.optional_scope (computeScopes args.scopes) = true
      · rw [if_pos h2]
        exact ⟨fun _ => rfl, by simp⟩
      · rw [if_neg h2]
        cases he : args.edit with
        | false =>
          rw [if_pos (by simp [he])]
          exact ⟨fun _ => rfl, by simp⟩
        | true =>
          rw [if_neg (by simp [he])]
          refine ⟨fun hc => ?_, ?_⟩
          · exact absurd hc (by simp)
          · exact editLoop_writes_shape args.types args.optional_scope
              (computeScopes args.scopes) env fuel 0 _ (by simp)

/-- C10 witness: a concrete non-conforming invocation without `--edit`
leaves the write trace empty. -/
theorem C10_no_write_without_edit_witness :
    (main ["file"] ⟨[], .text "random text", fun _ => .text ""⟩ 0).snd.writes = [] :=
  (C10_no_write_without_edit ["file"] ⟨[], .text "random text", fun _ => .text ""⟩ 0
      ⟨DEFAULT_TYPES, "file", true, none, false, false⟩
      (by decide) (by decide)).1 rfl

/-- C3: the breaking-change marker `!` is accepted only immediately before
the colon: `feat(api)!: breaking` conforms under scopes allow-list `["api"]`
with the default types, while `feat!(api): breaking` (marker before the
scope parentheses) is rejected for every configuration. -/
theorem C3_breaking_marker_position :
    is_conventional "feat(api)!: breaking" DEFAULT_TYPES true (some ["api"]) = true
    ∧ ∀ (types : List String) (opt : Bool) (scopes : Option (List String)),
        is_conventional "feat!(api): breaking" types opt scopes = false := by
  refine ⟨by decide, fun types opt scopes => ?_⟩
  have h : parseHeader "feat!(api): breaking" = none := by decide
  simp [is_conventional, h]

/-- C4: the `--scopes` argument is split on commas into the allow-list
passed to classification (`"api,client"` parses through to
`["api", "client"]`); with an allow-list present a header's scope must be an
exact member of it for the message to conform, and with the allow-list
absent any non-empty scope is accepted. -/
theorem C4_scopes_allowlist :
    parse_args ["--scopes", "api,client", "file"]
      = .ok ⟨DEFAULT_TYPES, "file", true, some "api,client", false, false⟩
    ∧ computeScopes (some "api,client") = some ["api", "client"]
    ∧ is_conventional "feat(api): add x" DEFAULT_TYPES true (some ["api"]) = true
    ∧ is_conventional "feat(api): add x" DEFAULT_TYPES true (some ["client"]) = false
    ∧ is_conventional "feat(api): add x" DEFAULT_TYPES true none = true
    ∧ ∀ (msg : String) (types : List String) (opt : Bool) (allow : List String)
        (h : Header) (s : String), parseHeader msg = some h → h.scope = some s →
        is_conventional msg types opt (some allow) = true → s ∈ allow := by
  refine ⟨by decide, by decide, by decide, by decide, by decide, ?_⟩
  intro msg types opt allow h s hph hsc hconv
  have hconv2 : (typeOk h.type types && scopeOk h.scope opt (some allow)) = true := by
    unfold is_conventional at hconv
    rw [hph] at hconv
    exact hconv
  have h2 : scopeOk h.scope opt (some allow) = true := by
    cases hb : scopeOk h.scope opt (some allow) with
    | true => rfl
    | false => rw [hb, Bool.and_false] at hconv2; exact absurd hconv2 (by simp)
  have h3 : allow.contains s = true := by
    rw [hsc] at h2
    exact h2
  exact List.mem_of_elem_eq_true h3

/-- C4 witness: the membership conjunct applied at a concrete header. -/
theorem C4_scopes_allowlist_witness :
    parseHeader "feat(api): add x" = some ⟨"feat", some "api", false, "add x"⟩
    ∧ "api" ∈ ["api"] :=
  ⟨by decide,
    C4_scopes_allowlist.2.2.2.2.2 "feat(api): add x" DEFAULT_TYPES true ["api"]
      ⟨"feat", some "api", false, "add x"⟩ "api" (by decide) rfl (by decide)⟩

/-- C5: when exactly one positional token is supplied (the input path alone,
no type arguments), the parsed `types` configuration is the built-in default
list `DEFAULT_TYPES` — which is non-empty, so the empty configuration falls
back to a deterministic default rather than failing — and every classifier
invocation of the run receives exactly that list. -/
theorem C5_default_types (argv : List String) (env : Env) (fuel : Nat)
    (st : ScanState) (args : Args) (hargv : argv ≠ [])
    (hscan : scanArgv argv initScan = .ok st)
    (hpos : st.positionals.length = 1)
    (hparse : parse_args argv = .ok args) :
    args.types = DEFAULT_TYPES ∧ DEFAULT_TYPES ≠ []
    ∧ ∀ c ∈ (main argv env fuel).snd.calls, c.types = DEFAULT_TYPES := by
  obtain ⟨x, hx⟩ := List.length_eq_one.mp hpos
  have htypes : args.types = DEFAULT_TYPES := by
    have hparse2 := hparse
    rw [parse_args_eq argv st hscan, hx] at hparse2
    have h2 : Except.ok (ε := Unit)
        (⟨DEFAULT_TYPES, x, st.optional_scope, st.scopes, st.strict, st.edit⟩ : Args)
        = .ok args := hparse2
    injection h2 with h3
    rw [← h3]
  exact ⟨htypes, by decide,
    fun c hc => (main_calls_types argv env fuel args hargv hparse c hc).trans htypes⟩

/-- C5 witness: the single-positional invocation `["file"]`. -/
theorem C5_default_types_witness :
    (⟨DEFAULT_TYPES, "file", true, none, false, false⟩ : Args).types = DEFAULT_TYPES
    ∧ DEFAULT_TYPES ≠ [] :=
  ⟨(C5_default_types ["file"] envGood 0 ⟨["file"], none, true, false, false⟩
      ⟨DEFAULT_TYPES, "file", true, none, false, false⟩
      (by decide) (by decide) (by decide) (by decide)).1,
    (C5_default_types ["file"] envGood 0 ⟨["file"], none, true, false, false⟩
      ⟨DEFAULT_TYPES, "file", true, none, false, false⟩
      (by decide) (by decide) (by decide) (by decide)).2.1⟩

/-- C7: an input file that cannot be decoded as UTF-8 is a distinct fatal
condition: `read_message_or_exit` yields the encoding-specific error text
together with exit status 1 (`Except.error`, the embedded `SystemExit`),
never a message string, and a `main` run on such a file ends in
`Outcome.sysExit RESULT_FAIL` with an empty trace — no classifier verdict,
and distinct from every ordinary `Outcome.exit` return. -/
theorem C7_undecodable_fatal (argv : List String) (env : Env) (fuel : Nat) (args : Args)
    (hargv : argv ≠ []) (hparse : parse_args argv = .ok args)
    (hfile : env.file = .undecodable) :
    read_message_or_exit .undecodable = .error (RESULT_FAIL, encoding_error_text)
    ∧ (∀ s, read_message_or_exit (.text s) = .ok s)
    ∧ main argv env fuel = (.sysExit RESULT_FAIL, ⟨[], []⟩)
    ∧ ∀ c, (Outcome.sysExit RESULT_FAIL) ≠ .exit c := by
  refine ⟨rfl, fun s => rfl, main_read_error argv env fuel args hargv hparse hfile, ?_⟩
  intro c h
  cases h

/-- C7 witness: a concrete undecodable file. -/
theorem C7_undecodable_fatal_witness :
    main ["file"] envBad 0 = (.sysExit RESULT_FAIL, ⟨[], []⟩) :=
  (C7_undecodable_fatal ["file"] envBad 0 ⟨DEFAULT_TYPES, "file", true, none, false, false⟩
      (by decide) (by decide) rfl).2.2.1

/-- C8: every argv the argument parser rejects makes `main` catch the
parser's `SystemExit` and return `RESULT_FAIL` (1) as an ordinary return
value: the outcome is `Outcome.exit RESULT_FAIL` — not `Outcome.sysExit`
(no exception propagates) and not argparse's usual exit status 2. -/
theorem C8_parse_error_caught (argv : List String) (env : Env) (fuel : Nat)
    (hargv : argv ≠ []) (herr : parse_args argv = .error ()) :
    main argv env fuel = (.exit RESULT_FAIL, ⟨[], []⟩) :=
  main_parse_error argv env fuel hargv herr

/-- C8 witness: `["--strict"]` lacks the required input positional. -/
theorem C8_parse_error_caught_witness :
    main ["--strict"] envGood 0 = (.exit RESULT_FAIL, ⟨[], []⟩) :=
  C8_parse_error_caught ["--strict"] envGood 0 (by decide) (by decide)

/-- C9: passing `--scopes` the empty string is treated as an absent
allow-list — the falsy value bypasses the comma-split (`computeScopes`
yields `none`), so a message with any non-empty scope is accepted — rather
than as an empty allow-list, which would reject every scope. -/
theorem C9_empty_scopes_absent :
    computeScopes (some "") = none
    ∧ parse_args ["--scopes", "", "file"]
      = .ok ⟨DEFAULT_TYPES, "file", true, some "", false, false⟩
    ∧ (main ["--scopes", "", "file"] envScopeAny 0).fst = .exit RESULT_SUCCESS
    ∧ is_conventional "feat(anything): add x" DEFAULT_TYPES true (some []) = false :=
  ⟨rfl, by decide, by decide, by decide⟩

/-- C6 (amended): with `--edit`, on classification failure the hook enters
the retry loop that re-reads the message file, re-classifies, rewrites the
file with a help header and re-opens the editor; the loop's only exit
conditions are the re-read message becoming conformant (return
`RESULT_SUCCESS`) and a decode failure on re-read (`SystemExit 1`), and it
does exit as soon as a re-read message conforms.  The user aborting the
editor is not an exit condition: the editor's exit status is discarded by
the source (`check=False`), so it does not occur in the loop's semantics at
all. -/
theorem C6_edit_loop_exit_conditions (types : List String) (opt : Bool)
    (scopes : Option (List String)) (env : Env) :
    ∀ (fuel k : Nat) (tr : Trace),
      (∀ c, (editLoop types opt scopes env fuel k tr).fst = .exit c →
        c = RESULT_SUCCESS ∧ ∃ j m, k ≤ j ∧ env.editReads j = .text m
          ∧ is_conventional m types opt scopes = true)
      ∧ (∀ c, (editLoop types opt scopes env fuel k tr).fst = .sysExit c →
        c = RESULT_FAIL ∧ ∃ j, k ≤ j ∧ env.editReads j = .undecodable)
      ∧ (∀ m, env.editReads k = .text m → is_conventional m types opt scopes = true →
        1 ≤ fuel → (editLoop types opt scopes env fuel k tr).fst = .exit RESULT_SUCCESS) := by
  intro fuel
  induction fuel with
  | zero =>
    intro k tr
    refine ⟨fun c hc => ?_, fun c hc => ?_, fun m _ _ hf => ?_⟩
    · exact absurd hc (by simp [editLoop])
    · exact absurd hc (by simp [editLoop])
    · exact absurd hf (by simp)
  | succ n ih =>
    intro k tr
    cases h : env.editReads k with
    | undecodable =>
      refine ⟨fun c hc => ?_, fun c hc => ?_, fun m hm _ _ => ?_⟩
      · simp only [editLoop, h, read_message_or_exit] at hc
        cases hc
      · simp only [editLoop, h, read_message_or_exit] at hc
        injection hc with h2
        exact ⟨h2.symm, k, le_refl k, h⟩
      · exact FileContent.noConfusion hm
    | text m0 =>
      by_cases hconv : is_conventional m0 types opt scopes = true
      · refine ⟨fun c hc => ?_, fun c hc => ?_, fun m hm hcm hf => ?_⟩
        · simp only [editLoop, h, read_message_or_exit, if_pos hconv] at hc
          injection hc with h2
          exact ⟨h2.symm, k, m0, le_refl k, h, hconv⟩
        · simp only [editLoop, h, read_message_or_exit, if_pos hconv] at hc
          cases hc
        · simp only [editLoop, h, read_message_or_exit, if_pos hconv]
      · refine ⟨fun c hc => ?_, fun c hc => ?_, fun m hm hcm hf => ?_⟩
        · simp only [editLoop, h, read_message_or_exit, if_neg hconv] at hc
          obtain ⟨h1, j, m1, hj, hr, hcv⟩ := (ih (k + 1) _).1 c hc
          exact ⟨h1, j, m1, le_trans (Nat.le_succ k) hj, hr, hcv⟩
        · simp only [editLoop, h, read_message_or_exit, if_neg hconv] at hc
          obtain ⟨h1, j, hj, hr⟩ := (ih (k + 1) _).2.1 c hc
          exact ⟨h1, j, le_trans (Nat.le_succ k) hj, hr⟩
        · injection hm with h2
          rw [← h2] at hcm
          exact absurd hcm hconv

/-- C6 witness: the loop exits with success as soon as a re-read message
conforms. -/
theorem C6_edit_loop_exit_conditions_witness :
    (editLoop DEFAULT_TYPES true none envGoodEdit 1 0 ⟨[], []⟩).fst
      = .exit RESULT_SUCCESS :=
  (C6_edit_loop_exit_conditions DEFAULT_TYPES true none envGoodEdit 1 0 ⟨[], []⟩).2.2
    "feat: add x" rfl (by decide) (by decide)

/-- The non-conforming message used in the C6 counterexample. -/
def badMessage : String := "not a conventional message"

/-- File contents seen by the k-th re-read of the retry loop when the user
aborts the editor at every reopen: the file keeps exactly what the hook
wrote in the previous iteration (the help header prepended to the previous
contents), so it never becomes conventional. -/
def abortReads : Nat → String
  | 0 => badMessage
  | k + 1 => editHelpText DEFAULT_TYPES ++ abortReads k

/-- Environment of an `--edit` run in which the user aborts the editor at
every reopen. -/
def abortEnv : Env := ⟨[], .text badMessage, fun k => .text (abortReads k)⟩

set_option maxRecDepth 100000 in
/-- C6 counterexample: the loop does NOT terminate when the user aborts the
editor.  In `abortEnv` the user aborts every editor reopen (each re-read
returns exactly what the hook wrote: the help header prepended to the old
contents, as the third conjunct shows for the read after the first abort),
yet after two full iterations — two rewrites of the file and two editor
reopenings, each followed by an abort — the loop is still running rather
than having exited. -/
theorem C6_counterexample :
    (main ["--edit", "file"] abortEnv 2).fst = .running
    ∧ (main ["--edit", "file"] abortEnv 2).snd.writes =
        [editHelpText DEFAULT_TYPES ++ badMessage,
          editHelpText DEFAULT_TYPES ++ (editHelpText DEFAULT_TYPES ++ badMessage)]
    ∧ abortEnv.editReads 1 = .text (editHelpText DEFAULT_TYPES ++ badMessage) :=
  ⟨by decide, by decide, rfl⟩

end Hook
